import Mathlib

/-!
Verification of the bedup deduplication pipeline (src/bedup/tracking.py,
src/bedup/logModel.py) against its natural-language specification.

The Python source is shallowly embedded: pure decision code becomes Lean
functions, the sqlalchemy session/commit machinery becomes explicit state
passing (a session image and a persisted image of the catalog), and
fallible operations return Except / Option values.  Machine integers in
the source (u64 sizes, generations, inode numbers, errno codes) are
modelled as Nat: the source never exercises overflow on them.
-/

namespace Bedup

/-! ## Python call semantics for `windowed_query` (tracking.py lines 318-347)

`tracking.py` defines `windowed_query` twice at module level; the second
definition (parameters `window_start, query, attr, per`) shadows the first
(which also took `clear_updates`).  `dedup_tracked` calls the surviving
definition with two positional arguments and the keyword arguments
`attr`, `per` and `clear_updates`.  We model CPython argument binding for
functions without defaults or `**kwargs`: the call succeeds iff the
positional arguments do not overflow the parameter list, every keyword
names a distinct parameter not already bound positionally, and every
remaining parameter receives a keyword. -/

/-- CPython argument binding (no defaults, no varargs): `params` is the
parameter list of the function, `npos` the number of positional arguments
of the call, `kwargs` the keyword names of the call. -/
def pyBindOk (params : List String) (npos : Nat) (kwargs : List String) : Bool :=
  decide (npos ≤ params.length) &&
  decide kwargs.Nodup &&
  kwargs.all (fun k => (params.drop npos).contains k) &&
  (params.drop npos).all (fun p => kwargs.contains p)

/-- The two module-level definitions of `windowed_query`, in source order
(tracking.py lines 318 and 335): each entry is one definition's parameter
list. -/
def windowedQueryDefsInOrder : List (List String) :=
  [["window_start", "query", "attr", "per", "clear_updates"],
   ["window_start", "query", "attr", "per"]]

/-- Python module semantics: a later `def` of the same name rebinds it, so
the surviving binding is the last definition. -/
def windowedQueryParams : List String :=
  (windowedQueryDefsInOrder.getLast?).getD []

/-- The keyword names of the `windowed_query(...)` call in `dedup_tracked`
(tracking.py lines 387-389); the call also passes `window_start` and
`query` positionally. -/
def dedupTrackedCallKwargs : List String := ["attr", "per", "clear_updates"]

inductive PyErr where
  | typeError
deriving DecidableEq

/-- The catalog state visible to `dedup_tracked`: the `Commonality1` count
`le` and the tracked inodes' `has_updates` flags (ino paired with flag). -/
structure DedupState where
  le : Nat
  inodes : List (Nat × Bool)
deriving DecidableEq

/-- `dedup_tracked` (tracking.py lines 350-392), up to the `windowed_query`
call.  If `le` is zero the windowed block is skipped and the final commit
leaves the state as is.  Otherwise the code reaches the
`windowed_query(window_start, query, attr=..., per=..., clear_updates=...)`
call; nothing before that call mutates any `has_updates` flag.  The result
records the Python outcome, the catalog state at that point, and whether
`dedup_tracked1` was invoked. -/
def dedup_tracked (st : DedupState) : Except PyErr Unit × DedupState × Bool :=
  if st.le = 0 then
    (Except.ok (), st, false)
  else
    if pyBindOk windowedQueryParams 2 dedupTrackedCallKwargs then
      (Except.ok (), st, true)
    else
      (Except.error PyErr.typeError, st, false)

/-! ## Scanner state (tracking.py `track_updated_files`, lines 203-315) -/

/-- The per-volume catalog fields the scanner reads and writes
(`Volume.size_cutoff`, `Volume.last_tracked_generation`,
`Volume.last_tracked_size_cutoff`; the last is nullable). -/
structure Volume where
  sizeCutoff : Nat
  lastTrackedGeneration : Nat
  lastTrackedSizeCutoff : Option Nat
deriving DecidableEq

/-- Python truthiness of a nullable integer column: `None` and `0` are
falsy. -/
def pyTruthy : Option Nat → Bool
  | none => false
  | some n => n != 0

/-- `min_generation` computation (tracking.py lines 206-211): the branch
condition is `vol.last_tracked_size_cutoff is not None and
vol.last_tracked_size_cutoff <= vol.size_cutoff`. -/
def minGeneration (vol : Volume) : Nat :=
  match vol.lastTrackedSizeCutoff with
  | some c => if c ≤ vol.sizeCutoff then vol.lastTrackedGeneration + 1 else 0
  | none => 0

/-- `BTRFS_INODE_ITEM_KEY` (btrfs on-disk constant). -/
def BTRFS_INODE_ITEM_KEY : Nat := 1

/-- One item yielded by the tree-search ioctl, as decoded by the scanner:
the search-header type and objectid, the inner inode generation, size and
regular-file bit of the inode payload, plus whether the subsequent
`lookup_ino_path_one` call succeeds for this inode. -/
structure SearchItem where
  itemType : Nat
  ino : Nat
  inodeGen : Nat
  size : Nat
  isReg : Bool
  lookupOk : Bool
deriving DecidableEq

/-- The generation-eligibility `continue`s of the scanner (tracking.py
lines 274-280): true when the item is skipped.  The branch condition
mirrors the Python truthiness of
`if (vol.last_tracked_size_cutoff and size >= vol.last_tracked_size_cutoff)`
(`None` and `0` are falsy). -/
def genSkip (vol : Volume) (minGen : Nat) (it : SearchItem) : Bool :=
  if pyTruthy vol.lastTrackedSizeCutoff &&
      decide (vol.lastTrackedSizeCutoff.getD 0 ≤ it.size) then
    decide (it.inodeGen ≤ vol.lastTrackedGeneration)
  else
    decide (it.inodeGen < minGen)

/-- The per-item filter of the scanner (tracking.py lines 262-287):
returns `some (ino, size)` exactly when the code reaches the
`get_or_create` upsert (which records the new size and sets
`has_updates = True`), `none` when one of the `continue`s fires. -/
def scanItemAction (vol : Volume) (minGen : Nat) (it : SearchItem) :
    Option (Nat × Nat) :=
  if it.itemType ≠ BTRFS_INODE_ITEM_KEY then none
  else if it.size < vol.sizeCutoff then none
  else if genSkip vol minGen it then none
  else if ¬ it.isReg then none
  else some (it.ino, it.size)

/-- Modelled from the spec's words ("when last_tracked_size_cutoff is set
and size ≥ last_tracked_size_cutoff, the inner inode generation must be
strictly greater than last_tracked_generation; otherwise the inner inode
generation must be ≥ min_generation"), to be compared with the source's
filter `scanItemAction`. -/
def specUpdateEligible (vol : Volume) (it : SearchItem) : Bool :=
  match vol.lastTrackedSizeCutoff with
  | some c =>
    if c ≤ it.size then decide (vol.lastTrackedGeneration < it.inodeGen)
    else decide (minGeneration vol ≤ it.inodeGen)
  | none => decide (minGeneration vol ≤ it.inodeGen)

/-- The in-session image of one volume's slice of the catalog: the volume
row and the `Inode` rows keyed by inode number, each carrying
`(size, has_updates)`. -/
structure ScanMem where
  vol : Volume
  inodes : Nat → Option (Nat × Bool)

/-- The catalog as the scanner sees it: the committed (persisted) image
and the live session image.  `sess.commit()` copies the session over the
persisted image. -/
structure DB where
  persisted : ScanMem
  session : ScanMem

/-- `sess.commit()`. -/
def commit (db : DB) : DB :=
  { persisted := db.session, session := db.session }

/-- Upsert of an `Inode` row: `get_or_create` followed by
`inode.size = size; inode.has_updates = True`. -/
def upsertInode (f : Nat → Option (Nat × Bool)) (ino size : Nat) :
    Nat → Option (Nat × Bool) :=
  fun i => if i = ino then some (size, true) else f i

/-- Removal of an `Inode` row (`sess.delete` of an existing row, or
`sess.expunge` of a row created moments ago: either way the session holds
no row for the inode afterwards). -/
def dropInode (f : Nat → Option (Nat × Bool)) (ino : Nat) :
    Nat → Option (Nat × Bool) :=
  fun i => if i = ino then none else f i

inductive IOErr where
  | ioerr (code : Nat)
deriving DecidableEq

/-- Processing of a single search item by the scanner loop body: run the
filter; on upsert, verify the path lookup (tracking.py lines 289-298) and
withdraw the row when it fails. -/
def scanItemStep (minGen : Nat) (s : ScanMem) (it : SearchItem) : ScanMem :=
  match scanItemAction s.vol minGen it with
  | none => s
  | some (ino, size) =>
    if it.lookupOk then { s with inodes := upsertInode s.inodes ino size }
    else { s with inodes := dropInode s.inodes ino }

/-- The scanner's ioctl loop (tracking.py lines 244-312): each list entry
is the outcome of one `BTRFS_IOC_TREE_SEARCH` call, either an I/O error
(which the `except IOError: raise` propagates) or a batch of items.  An
empty batch is the `sk.nr_items == 0` break.  Returns the session image
reached together with the error, if one interrupted the loop. -/
def runBatches (minGen : Nat) (batches : List (Except IOErr (List SearchItem)))
    (s : ScanMem) : ScanMem × Option IOErr :=
  match batches with
  | [] => (s, none)
  | (Except.error e) :: _ => (s, some e)
  | (Except.ok items) :: rest =>
    if items.isEmpty then (s, none)
    else runBatches minGen rest (items.foldl (scanItemStep minGen) s)

/-- `track_updated_files` (tracking.py lines 203-315).  `topGen` is the
root generation read at entry; `batches` the tree-search outcomes.  If
`min_generation > top_generation` the scan is skipped and the session is
committed as is.  Otherwise the loop runs; an I/O error propagates with
no commit (the dirty session is kept, the persisted image untouched); on
clean completion `last_tracked_generation` and `last_tracked_size_cutoff`
are set and the single end-of-scan commit runs. -/
def track_updated_files (topGen : Nat)
    (batches : List (Except IOErr (List SearchItem))) (db : DB) :
    Option IOErr × DB :=
  if minGeneration db.session.vol > topGen then
    (none, commit db)
  else
    match runBatches (minGeneration db.session.vol) batches db.session with
    | (s1, some e) => (some e, { db with session := s1 })
    | (s1, none) =>
      let s2 : ScanMem :=
        { s1 with vol :=
          { s1.vol with
            lastTrackedGeneration := topGen,
            lastTrackedSizeCutoff := some s1.vol.sizeCutoff } }
      (none, commit { db with session := s2 })

/-- `forget_vol` (tracking.py lines 94-98): deletes the volume's `Inode`
rows, resets `last_tracked_generation` to 0 and commits. -/
def forget_vol (db : DB) : DB :=
  commit
    { db with session :=
      { vol := { db.session.vol with lastTrackedGeneration := 0 },
        inodes := fun _ => none } }

/-! ## Cloner fd budget (tracking.py `dedup_tracked1`, lines 470-485) -/

/-- A candidate inode as the budget block sees it. -/
structure CInode where
  ino : Nat
  hasUpdates : Bool
deriving DecidableEq

/-- `ofile_reserved = 7 + len(volset)` (tracking.py line 358). -/
def ofileReserved (nvols : Nat) : Nat := 7 + nvols

inductive BudgetOutcome where
  | proceed (newSoft : Nat)
  | deferGroup (skippedAppend : List CInode) (newSoft : Nat)
deriving DecidableEq

/-- The fd budget check (tracking.py lines 470-485):
`ofile_req = 2 * count3 + ofile_reserved`; if it exceeds the soft limit
and fits under the hard limit, `setrlimit` raises the soft limit to
`ofile_req`; if it exceeds the hard limit the group is skipped
(`continue`) after appending to `skipped` exactly the members whose
`has_updates` flag is set; otherwise the group proceeds unchanged. -/
def fdBudget (count3 reserved softLimit hardLimit : Nat)
    (inodes : List CInode) : BudgetOutcome :=
  if 2 * count3 + reserved > softLimit then
    if 2 * count3 + reserved ≤ hardLimit then
      BudgetOutcome.proceed (2 * count3 + reserved)
    else
      BudgetOutcome.deferGroup (inodes.filter (fun i => i.hasUpdates)) softLimit
  else BudgetOutcome.proceed softLimit

def budgetSoftAfter : BudgetOutcome → Nat
  | BudgetOutcome.proceed n => n
  | BudgetOutcome.deferGroup _ n => n

def budgetSkipped : BudgetOutcome → List CInode
  | BudgetOutcome.proceed _ => []
  | BudgetOutcome.deferGroup l _ => l

def isProceed : BudgetOutcome → Bool
  | BudgetOutcome.proceed _ => true
  | BudgetOutcome.deferGroup _ _ => false

/-- Modelled from the spec's words, the claim C2 reading of the budget
step at one input: when required_fds exceeds the soft limit but not the
hard limit the soft limit is raised and the group proceeds; when it
exceeds the hard limit the soft limit is raised up to the hard limit and
every candidate of the group is deferred for retry. -/
def c2ClaimAt (count3 reserved softLimit hardLimit : Nat)
    (inodes : List CInode) : Prop :=
  (softLimit < 2 * count3 + reserved ∧ 2 * count3 + reserved ≤ hardLimit →
    isProceed (fdBudget count3 reserved softLimit hardLimit inodes) = true ∧
    softLimit < budgetSoftAfter (fdBudget count3 reserved softLimit hardLimit inodes)) ∧
  (hardLimit < 2 * count3 + reserved →
    budgetSoftAfter (fdBudget count3 reserved softLimit hardLimit inodes) = hardLimit ∧
    ∀ i ∈ inodes, i ∈ budgetSkipped (fdBudget count3 reserved softLimit hardLimit inodes))

/-! ## Cloner open stage (tracking.py `dedup_tracked1`, lines 487-517) -/

inductive LookupErr where
  | enoent
  | otherErr (code : Nat)
deriving DecidableEq

inductive OpenErr where
  | etxtbsy
  | eacces
  | enoent
  | otherErr (code : Nat)
deriving DecidableEq

inductive OpenOutcome where
  | deleted
  | skipped
  | opened
  | propagated (code : Nat)
deriving DecidableEq

/-- The per-candidate open step of the cloner (tracking.py lines 487-517):
`lookup_ino_path_one` failing with ENOENT deletes the catalog row, any
other lookup error propagates; `fopenat_rw` failing with ETXTBSY, EACCES
or ENOENT appends the inode to `skipped` (`continue`), any other open
error propagates. -/
def openCandidate (lookupRes : Except LookupErr Unit)
    (openRes : Except OpenErr Unit) : OpenOutcome :=
  match lookupRes with
  | Except.error LookupErr.enoent => OpenOutcome.deleted
  | Except.error (LookupErr.otherErr c) => OpenOutcome.propagated c
  | Except.ok _ =>
    match openRes with
    | Except.error OpenErr.etxtbsy => OpenOutcome.skipped
    | Except.error OpenErr.eacces => OpenOutcome.skipped
    | Except.error OpenErr.enoent => OpenOutcome.skipped
    | Except.error (OpenErr.otherErr c) => OpenOutcome.propagated c
    | Except.ok _ => OpenOutcome.opened

/-- Modelled from the spec's words, the claim C5 reading at one input: an
ENOENT, raised on either path resolution or open, deletes the inode row
from the catalog. -/
def c5ClaimAt (lookupRes : Except LookupErr Unit)
    (openRes : Except OpenErr Unit) : Prop :=
  lookupRes = Except.error LookupErr.enoent ∨
    (lookupRes = Except.ok () ∧ openRes = Except.error OpenErr.enoent) →
  openCandidate lookupRes openRes = OpenOutcome.deleted

/-! ## Cloner post-hash race checks (tracking.py lines 534-564) -/

/-- One candidate inside the immutable-flag block, after the write-use
check let it through and it was hashed: its catalog record (`inode.ino`,
`inode.vol.st_dev`, `inode.vol.size_cutoff`) and the live observations
(`os.fstat(fd).st_ino`, `.st_dev`, `afile.tell()`). -/
structure CloneCand where
  inoRec : Nat
  volDev : Nat
  volCutoff : Nat
  stIno : Nat
  stDev : Nat
  tellSize : Nat
deriving DecidableEq

inductive HashCheckOutcome where
  | skipped
  | deleted
  | bucketed
deriving DecidableEq

/-- The post-hash checks (tracking.py lines 545-564): fstat st_ino and
st_dev against the record, then the current length against the group size
(`comm3.size`), deleting the row when the length dropped below the
volume's cutoff; only survivors are appended to `by_hash` (the digest
buckets, prerequisite to any cloning). -/
def hashCheck (groupSize : Nat) (c : CloneCand) : HashCheckOutcome :=
  if c.stIno ≠ c.inoRec then HashCheckOutcome.skipped
  else if c.stDev ≠ c.volDev then HashCheckOutcome.skipped
  else if c.tellSize ≠ groupSize then
    if c.tellSize < c.volCutoff then HashCheckOutcome.deleted
    else HashCheckOutcome.skipped
  else HashCheckOutcome.bucketed

/-! ## Cloner clone loop and audit (tracking.py lines 566-602) -/

/-- A `DedupEvent` row together with its `DedupEventInode` rows (one per
listed file id): `item_size`, `created`, and the referenced inodes in
insertion order (source first). -/
structure DedupEvent where
  item_size : Nat
  created : Nat
  inodes : List Nat
deriving DecidableEq

/-- The destination loop (tracking.py lines 577-592) over `dfiles`:
`cmp_files` failing fires `assert False` (modelled as an error); a
destination whose `clone_data` call returns true is appended to
`dfiles_successful`. -/
def processDest (cmp clone : Nat → Bool) : List Nat → Except Unit (List Nat)
  | [] => Except.ok []
  | d :: rest =>
    if ¬ cmp d then Except.error ()
    else
      match processDest cmp clone rest with
      | Except.error e => Except.error e
      | Except.ok l => Except.ok (if clone d then d :: l else l)

/-- One digest bucket through the clone loop (tracking.py lines 566-602):
buckets of fewer than two files are skipped; otherwise the first file is
the source, the rest destinations; if any destination succeeded, one
`DedupEvent(fs, item_size=comm3.size, created=now)` is appended with one
`DedupEventInode` for the source and one per successful destination. -/
def processFileset (size now : Nat) (cmp clone : Nat → Bool)
    (fileset : List Nat) : Except Unit (List DedupEvent) :=
  match fileset with
  | [] => Except.ok []
  | s :: dfiles =>
    if dfiles.isEmpty then Except.ok []
    else
      match processDest cmp clone dfiles with
      | Except.error e => Except.error e
      | Except.ok succ =>
        Except.ok
          (if succ = [] then []
           else [{ item_size := size, created := now, inodes := s :: succ }])

/-! ## Concrete states used by witnesses and counterexamples -/

def exVolumeShrunk : Volume := { sizeCutoff := 8, lastTrackedGeneration := 5, lastTrackedSizeCutoff := some 16 }

def exVolumeSteady : Volume := { sizeCutoff := 8, lastTrackedGeneration := 3, lastTrackedSizeCutoff := some 8 }

def exVolumeFresh : Volume := { sizeCutoff := 8, lastTrackedGeneration := 0, lastTrackedSizeCutoff := none }

def exMemSteady : ScanMem := { vol := exVolumeSteady, inodes := fun _ => none }

def exMemFresh : ScanMem := { vol := exVolumeFresh, inodes := fun _ => none }

def exDBSteady : DB := { persisted := exMemSteady, session := exMemSteady }

def exDBFresh : DB := { persisted := exMemFresh, session := exMemFresh }

def exMemTracked : ScanMem := { vol := exVolumeShrunk, inodes := fun _ => none }

def exDBTracked : DB := { persisted := exMemTracked, session := exMemTracked }

def exCInodes : List CInode := [{ ino := 1, hasUpdates := false }, { ino := 2, hasUpdates := true }]

def exCandShrunk : CloneCand :=
  { inoRec := 11, volDev := 7, volCutoff := 50, stIno := 11, stDev := 7, tellSize := 20 }

def exItemOk : SearchItem :=
  { itemType := 1, ino := 42, inodeGen := 9, size := 100, isReg := true, lookupOk := true }

/-! ## Theorems -/

/-- C1: for every catalog state whose `Commonality1` count `le` is
nonzero, `dedup_tracked` raises a TypeError: the surviving (second)
definition of `windowed_query` has no `clear_updates` parameter, so the
keyword call fails to bind.  `dedup_tracked1` is never reached and the
catalog state — in particular every `has_updates` flag — is left exactly
as it was. -/
theorem claim_C1 (st : DedupState) (h : st.le ≠ 0) :
    dedup_tracked st = (Except.error PyErr.typeError, st, false) ∧
    windowedQueryParams = ["window_start", "query", "attr", "per"] ∧
    "clear_updates" ∉ windowedQueryParams ∧
    pyBindOk windowedQueryParams 2 dedupTrackedCallKwargs = false := by
  refine ⟨?_, by decide, by decide, by decide⟩
  unfold dedup_tracked
  rw [if_neg h]
  have hb : pyBindOk windowedQueryParams 2 dedupTrackedCallKwargs = false := by decide
  rw [hb]
  simp

theorem claim_C1_witness :
    dedup_tracked { le := 3, inodes := [(1, true)] } =
      (Except.error PyErr.typeError, { le := 3, inodes := [(1, true)] }, false) :=
  (claim_C1 { le := 3, inodes := [(1, true)] } (by decide)).1

/-- C6: `min_generation = last_tracked_generation + 1` iff
`last_tracked_size_cutoff` is set and ≤ the current `size_cutoff`;
otherwise `min_generation = 0`.  In particular a shrunk cutoff
(`last_tracked_size_cutoff > size_cutoff`) forces `min_generation = 0`,
a full rescan. -/
theorem claim_C6 (vol : Volume) :
    (minGeneration vol = vol.lastTrackedGeneration + 1 ↔
      ∃ c, vol.lastTrackedSizeCutoff = some c ∧ c ≤ vol.sizeCutoff) ∧
    (¬ (∃ c, vol.lastTrackedSizeCutoff = some c ∧ c ≤ vol.sizeCutoff) →
      minGeneration vol = 0) := by
  rcases hc : vol.lastTrackedSizeCutoff with _ | c
  · simp [minGeneration, hc]
  · by_cases hle : c ≤ vol.sizeCutoff
    · simp [minGeneration, hc, hle]
    · simp [minGeneration, hc, hle]

theorem claim_C6_witness :
    minGeneration exVolumeShrunk = 0 ∧
    minGeneration exVolumeSteady = exVolumeSteady.lastTrackedGeneration + 1 :=
  ⟨(claim_C6 exVolumeShrunk).2
      (by rintro ⟨c, hc, hle⟩; rw [show exVolumeShrunk.lastTrackedSizeCutoff = some 16 from rfl] at hc; cases hc; exact absurd hle (by decide)),
   (claim_C6 exVolumeSteady).1.mpr ⟨8, rfl, by decide⟩⟩

/-- C5, amended: in the cloner's open step, ETXTBSY, EACCES and ENOENT on
`fopenat_rw` all defer the inode (appended to `skipped`); ENOENT on path
resolution deletes the inode row; any other I/O error, on either call,
propagates out of the group. -/
theorem claim_C5_amended (openRes : Except OpenErr Unit) (c : Nat) :
    openCandidate (Except.error LookupErr.enoent) openRes = OpenOutcome.deleted ∧
    openCandidate (Except.error (LookupErr.otherErr c)) openRes = OpenOutcome.propagated c ∧
    openCandidate (Except.ok ()) (Except.error OpenErr.etxtbsy) = OpenOutcome.skipped ∧
    openCandidate (Except.ok ()) (Except.error OpenErr.eacces) = OpenOutcome.skipped ∧
    openCandidate (Except.ok ()) (Except.error OpenErr.enoent) = OpenOutcome.skipped ∧
    openCandidate (Except.ok ()) (Except.error (OpenErr.otherErr c)) = OpenOutcome.propagated c ∧
    openCandidate (Except.ok ()) (Except.ok ()) = OpenOutcome.opened :=
  ⟨rfl, rfl, rfl, rfl, rfl, rfl, rfl⟩

/-- C5 counterexample: an ENOENT raised by the open call (path resolution
having succeeded) leads the code to append the inode to `skipped`, not to
delete the catalog row, contradicting the claim that ENOENT on either
path deletes the row. -/
theorem claim_C5_counterexample :
    ¬ c5ClaimAt (Except.ok ()) (Except.error OpenErr.enoent) := by
  intro h
  have := h (Or.inr ⟨rfl, rfl⟩)
  exact absurd this (by decide)

/-- C4: inside the immutable-flag block, after hashing, a candidate whose
fstat `st_ino` or `st_dev` disagrees with the catalog record is deferred
(skipped) and never bucketed; a candidate passing that identity check
whose current length differs from the group's size is deleted when the
length is below the volume's cutoff and deferred otherwise, and in either
case never bucketed (hence never cloned). -/
theorem claim_C4 (groupSize : Nat) (c : CloneCand) :
    (c.stIno ≠ c.inoRec ∨ c.stDev ≠ c.volDev →
      hashCheck groupSize c = HashCheckOutcome.skipped) ∧
    (c.stIno = c.inoRec → c.stDev = c.volDev → c.tellSize ≠ groupSize →
      hashCheck groupSize c =
        (if c.tellSize < c.volCutoff then HashCheckOutcome.deleted
         else HashCheckOutcome.skipped) ∧
      hashCheck groupSize c ≠ HashCheckOutcome.bucketed) := by
  constructor
  · intro h
    unfold hashCheck
    rcases h with h | h
    · rw [if_pos h]
    · by_cases h1 : c.stIno ≠ c.inoRec
      · rw [if_pos h1]
      · rw [if_neg h1, if_pos h]
  · intro h1 h2 h3
    unfold hashCheck
    rw [if_neg (by simpa using h1), if_neg (by simpa using h2), if_pos h3]
    constructor
    · rfl
    · by_cases h4 : c.tellSize < c.volCutoff
      · rw [if_pos h4]
        decide
      · rw [if_neg h4]
        decide

theorem claim_C4_witness :
    hashCheck 100 exCandShrunk =
      (if exCandShrunk.tellSize < exCandShrunk.volCutoff then HashCheckOutcome.deleted
       else HashCheckOutcome.skipped) ∧
    hashCheck 100 exCandShrunk ≠ HashCheckOutcome.bucketed :=
  (claim_C4 100 exCandShrunk).2 rfl rfl (by decide)

/-- C2, amended: with `required_fds = 2 × count3 + reserved`, a group
with `required_fds ≤ soft` proceeds with the soft limit unchanged; one
with `soft < required_fds ≤ hard` proceeds after the soft limit is raised
to `required_fds`; one with `required_fds > hard` is skipped with the
soft limit left unchanged, no candidate file opened, and exactly those
candidates whose `has_updates` flag is set appended to `skipped` for
retry. -/
theorem claim_C2_amended (count3 reserved softLimit hardLimit : Nat)
    (inodes : List CInode) (hsh : softLimit ≤ hardLimit) :
    (2 * count3 + reserved ≤ softLimit →
      fdBudget count3 reserved softLimit hardLimit inodes =
        BudgetOutcome.proceed softLimit) ∧
    (softLimit < 2 * count3 + reserved → 2 * count3 + reserved ≤ hardLimit →
      fdBudget count3 reserved softLimit hardLimit inodes =
        BudgetOutcome.proceed (2 * count3 + reserved)) ∧
    (hardLimit < 2 * count3 + reserved →
      fdBudget count3 reserved softLimit hardLimit inodes =
        BudgetOutcome.deferGroup (inodes.filter (fun i => i.hasUpdates)) softLimit) := by
  refine ⟨?_, ?_, ?_⟩ <;> unfold fdBudget
  · intro h
    rw [if_neg (by omega)]
  · intro h1 h2
    rw [if_pos (by omega), if_pos h2]
  · intro h
    rw [if_pos (by omega), if_neg (by omega)]

theorem claim_C2_witness :
    fdBudget 5000 (ofileReserved 1) 1024 2048 exCInodes =
      BudgetOutcome.deferGroup (exCInodes.filter (fun i => i.hasUpdates)) 1024 :=
  (claim_C2_amended 5000 (ofileReserved 1) 1024 2048 exCInodes (by decide)).2.2 (by decide)

/-- C2 counterexample: a size-group of 5000 candidates under a 1024 soft
/ 2048 hard fd limit (one volume, so `reserved = 8`): the code leaves the
soft limit at 1024 — it is not raised up to the hard limit — and the
candidate with `has_updates = false` is not appended to `skipped`, so the
claim as stated fails at this input. -/
theorem claim_C2_counterexample :
    ¬ c2ClaimAt 5000 (ofileReserved 1) 1024 2048 exCInodes ∧
    budgetSoftAfter (fdBudget 5000 (ofileReserved 1) 1024 2048 exCInodes) = 1024 ∧
    ({ ino := 1, hasUpdates := false } : CInode) ∉
      budgetSkipped (fdBudget 5000 (ofileReserved 1) 1024 2048 exCInodes) := by
  refine ⟨?_, by decide, by decide⟩
  intro h
  have h2 := (h.2 (by decide)).1
  rw [show budgetSoftAfter (fdBudget 5000 (ofileReserved 1) 1024 2048 exCInodes) = 1024 from by decide] at h2
  exact absurd h2 (by decide)

/-- When every destination compares equal to the source (`cmp_files`
never fails), the destination loop returns exactly the destinations whose
`clone_data` call returned true, in order. -/
theorem processDest_eq_filter (cmp clone : Nat → Bool) (l : List Nat)
    (h : ∀ d ∈ l, cmp d = true) :
    processDest cmp clone l = Except.ok (l.filter (fun d => clone d)) := by
  induction l with
  | nil => rfl
  | cons d rest ih =>
    have hd : cmp d = true := h d (by simp)
    have hrest : ∀ x ∈ rest, cmp x = true := fun x hx => h x (by simp [hx])
    unfold processDest
    rw [ih hrest, hd]
    by_cases hc : clone d <;> simp [hc, List.filter_cons]

/-- C3: in the cloning stage (assuming `cmp_files` confirms every
destination, so the fatal-assert path is not taken), a `DedupEvent` is
appended iff at least one destination's `clone_data` call returned true;
the appended event carries the group's item size and the current
timestamp and references the source (the first member of the digest
bucket, deterministically) plus every successful destination — hence at
least 2 inodes. -/
theorem claim_C3 (size now : Nat) (cmp clone : Nat → Bool) (s : Nat)
    (ds : List Nat) (hcmp : ∀ d ∈ ds, cmp d = true) :
    processFileset size now cmp clone (s :: ds) =
      Except.ok
        (if ds.filter (fun d => clone d) = [] then []
         else [{ item_size := size, created := now,
                 inodes := s :: ds.filter (fun d => clone d) }]) ∧
    (¬ ds.filter (fun d => clone d) = [] ↔ ∃ d ∈ ds, clone d = true) ∧
    (∀ evs, processFileset size now cmp clone (s :: ds) = Except.ok evs →
      ∀ ev ∈ evs, ev.item_size = size ∧ ev.created = now ∧
        ev.inodes.head? = some s ∧ 2 ≤ ev.inodes.length) := by
  have hiff : ¬ ds.filter (fun d => clone d) = [] ↔ ∃ d ∈ ds, clone d = true := by
    simp [List.filter_eq_nil_iff]
  have heq : processFileset size now cmp clone (s :: ds) =
      Except.ok
        (if ds.filter (fun d => clone d) = [] then []
         else [{ item_size := size, created := now,
                 inodes := s :: ds.filter (fun d => clone d) }]) := by
    cases ds with
    | nil => rfl
    | cons d rest =>
      rw [processFileset, if_neg (by simp), processDest_eq_filter cmp clone (d :: rest) hcmp]
  refine ⟨heq, hiff, ?_⟩
  intro evs hevs ev hev
  rw [heq] at hevs
  by_cases hnil : ds.filter (fun d => clone d) = []
  · rw [if_pos hnil] at hevs
    cases hevs
    exact absurd hev (by simp)
  · rw [if_neg hnil] at hevs
    cases hevs
    rw [List.mem_singleton] at hev
    subst hev
    refine ⟨rfl, rfl, rfl, ?_⟩
    have hpos : 0 < (ds.filter (fun d => clone d)).length :=
      List.length_pos.mpr hnil
    simp only [List.length_cons]
    omega

theorem claim_C3_witness :
    processFileset 7 3 (fun _ => true) (fun d => decide (d = 2)) (1 :: [2, 3]) =
      Except.ok
        (if [2, 3].filter (fun d => decide (d = 2)) = [] then []
         else [{ item_size := 7, created := 3,
                 inodes := 1 :: [2, 3].filter (fun d => decide (d = 2)) }]) :=
  (claim_C3 7 3 (fun _ => true) (fun d => decide (d = 2)) 1 [2, 3]
    (by intro d _; rfl)).1

/-- The scanner's generation `continue`s let an item through exactly when
it is update-eligible in the spec's sense, once `min_generation` is the
one `track_updated_files` computes for the volume. -/
theorem genSkip_false_iff_eligible (vol : Volume) (it : SearchItem) :
    genSkip vol (minGeneration vol) it = false ↔
      specUpdateEligible vol it = true := by
  rcases h : vol.lastTrackedSizeCutoff with _ | c
  · simp [genSkip, specUpdateEligible, pyTruthy, minGeneration, h]
  · rcases Nat.eq_zero_or_pos c with hc | hc
    · subst hc
      simp [genSkip, specUpdateEligible, pyTruthy, minGeneration, h]
      omega
    · by_cases hcs : c ≤ it.size
      · simp [genSkip, specUpdateEligible, pyTruthy, minGeneration, h, hcs,
          Nat.pos_iff_ne_zero.mp hc]
      · simp [genSkip, specUpdateEligible, pyTruthy, minGeneration, h, hcs,
          Nat.pos_iff_ne_zero.mp hc]

/-- The upsert, when it fires, records the item's own inode number and
decoded size. -/
theorem scanItemAction_some (vol : Volume) (minGen : Nat) (it : SearchItem)
    (p : Nat × Nat) (hp : scanItemAction vol minGen it = some p) :
    p = (it.ino, it.size) := by
  unfold scanItemAction at hp
  by_cases h1 : it.itemType ≠ BTRFS_INODE_ITEM_KEY
  · rw [if_pos h1] at hp
    exact absurd hp (by simp)
  rw [if_neg h1] at hp
  by_cases h2 : it.size < vol.sizeCutoff
  · rw [if_pos h2] at hp
    exact absurd hp (by simp)
  rw [if_neg h2] at hp
  by_cases h3 : genSkip vol minGen it = true
  · rw [if_pos h3] at hp
    exact absurd hp (by simp)
  rw [if_neg h3] at hp
  by_cases h4 : ¬ it.isReg = true
  · rw [if_pos h4] at hp
    exact absurd hp (by simp)
  rw [if_neg h4] at hp
  exact (Option.some.inj hp).symm

/-- C7: with `min_generation` as computed for the volume, an item is
upserted (new size recorded, `has_updates` set true) iff its header type
is `INODE_ITEM_KEY`, its size is ≥ the volume's cutoff, its mode is
regular, and it is update-eligible (generation strictly above
`last_tracked_generation` when `last_tracked_size_cutoff` is set and
`size ≥ last_tracked_size_cutoff`, else generation ≥ `min_generation`);
an item failing any condition leaves the catalog unchanged. -/
theorem claim_C7 (s : ScanMem) (it : SearchItem) :
    ((scanItemAction s.vol (minGeneration s.vol) it).isSome = true ↔
      it.itemType = BTRFS_INODE_ITEM_KEY ∧ s.vol.sizeCutoff ≤ it.size ∧
        it.isReg = true ∧ specUpdateEligible s.vol it = true) ∧
    (scanItemAction s.vol (minGeneration s.vol) it = none →
      scanItemStep (minGeneration s.vol) s it = s) ∧
    (∀ p, scanItemAction s.vol (minGeneration s.vol) it = some p →
      p = (it.ino, it.size)) ∧
    (¬ scanItemAction s.vol (minGeneration s.vol) it = none →
      it.lookupOk = true →
      (scanItemStep (minGeneration s.vol) s it).inodes it.ino =
        some (it.size, true)) := by
  have hg := genSkip_false_iff_eligible s.vol it
  refine ⟨?_, ?_, scanItemAction_some s.vol (minGeneration s.vol) it, ?_⟩
  · unfold scanItemAction
    by_cases h1 : it.itemType ≠ BTRFS_INODE_ITEM_KEY
    · rw [if_pos h1]
      exact iff_of_false (by decide) (fun h => h1 h.1)
    rw [if_neg h1]
    by_cases h2 : it.size < s.vol.sizeCutoff
    · rw [if_pos h2]
      exact iff_of_false (by decide) (fun h => absurd h.2.1 (by omega))
    rw [if_neg h2]
    by_cases h3 : genSkip s.vol (minGeneration s.vol) it = true
    · rw [if_pos h3]
      exact iff_of_false (by decide)
        (fun h => absurd (hg.mpr h.2.2.2) (by simp [h3]))
    rw [if_neg h3]
    by_cases h4 : ¬ it.isReg = true
    · rw [if_pos h4]
      exact iff_of_false (by decide) (fun h => h4 h.2.2.1)
    rw [if_neg h4]
    exact iff_of_true rfl
      ⟨not_not.mp h1, by omega, not_not.mp h4, hg.mp (by simpa using h3)⟩
  · intro h
    unfold scanItemStep
    rw [h]
  · intro hne hlk
    rcases ha : scanItemAction s.vol (minGeneration s.vol) it with _ | p
    · exact absurd ha hne
    · have hp := scanItemAction_some s.vol (minGeneration s.vol) it p ha
      subst hp
      unfold scanItemStep
      rw [ha, hlk]
      simp [upsertInode]

theorem claim_C7_witness :
    (scanItemAction exMemSteady.vol (minGeneration exMemSteady.vol) exItemOk).isSome
        = true ∧
    (scanItemStep (minGeneration exMemSteady.vol) exMemSteady exItemOk).inodes
        exItemOk.ino = some (exItemOk.size, true) :=
  ⟨(claim_C7 exMemSteady exItemOk).1.mpr ⟨rfl, by decide, rfl, by decide⟩,
   (claim_C7 exMemSteady exItemOk).2.2.2 (by decide) rfl⟩

/-- The scanner loop body never touches the volume row: only `Inode`
rows are upserted or withdrawn. -/
theorem scanItemStep_vol (minGen : Nat) (s : ScanMem) (it : SearchItem) :
    (scanItemStep minGen s it).vol = s.vol := by
  unfold scanItemStep
  rcases scanItemAction s.vol minGen it with _ | p
  · rfl
  · rcases p with ⟨ino, size⟩
    by_cases h : it.lookupOk = true <;> simp [h]

/-- Folding the loop body over a batch preserves the volume row. -/
theorem foldl_scanItemStep_vol (minGen : Nat) (items : List SearchItem)
    (s : ScanMem) : (items.foldl (scanItemStep minGen) s).vol = s.vol := by
  induction items generalizing s with
  | nil => rfl
  | cons it rest ih => rw [List.foldl_cons, ih, scanItemStep_vol]

/-- The whole ioctl loop preserves the volume row of the session. -/
theorem runBatches_vol (minGen : Nat)
    (batches : List (Except IOErr (List SearchItem))) (s : ScanMem) :
    (runBatches minGen batches s).1.vol = s.vol := by
  induction batches generalizing s with
  | nil => rfl
  | cons b rest ih =>
    rcases b with e | items
    · rfl
    · unfold runBatches
      by_cases h : items.isEmpty <;> simp [h, ih, foldl_scanItemStep_vol]

/-- C8: if a tree-search ioctl raises an I/O error mid-scan (the batch
processing stops at an error), `track_updated_files` propagates that
error and the persisted catalog is unchanged — in particular
`last_tracked_generation` and `last_tracked_size_cutoff` keep their
prior values, because the single end-of-scan commit never runs. -/
theorem claim_C8 (topGen : Nat)
    (batches : List (Except IOErr (List SearchItem))) (db : DB) (e : IOErr)
    (h1 : minGeneration db.session.vol ≤ topGen)
    (h2 : (runBatches (minGeneration db.session.vol) batches db.session).2 =
      some e) :
    (track_updated_files topGen batches db).1 = some e ∧
    (track_updated_files topGen batches db).2.persisted = db.persisted ∧
    (track_updated_files topGen batches db).2.persisted.vol.lastTrackedGeneration
      = db.persisted.vol.lastTrackedGeneration ∧
    (track_updated_files topGen batches db).2.persisted.vol.lastTrackedSizeCutoff
      = db.persisted.vol.lastTrackedSizeCutoff := by
  unfold track_updated_files
  rw [if_neg (by omega)]
  rcases hr : runBatches (minGeneration db.session.vol) batches db.session
    with ⟨s1, r⟩
  rw [hr] at h2
  simp only at h2
  subst h2
  exact ⟨rfl, rfl, rfl, rfl⟩

theorem claim_C8_witness :
    (track_updated_files 10 [Except.error (IOErr.ioerr 5)] exDBSteady).1 =
      some (IOErr.ioerr 5) ∧
    (track_updated_files 10 [Except.error (IOErr.ioerr 5)] exDBSteady).2.persisted
      = exDBSteady.persisted :=
  ⟨(claim_C8 10 [Except.error (IOErr.ioerr 5)] exDBSteady (IOErr.ioerr 5)
      (by decide) rfl).1,
   (claim_C8 10 [Except.error (IOErr.ioerr 5)] exDBSteady (IOErr.ioerr 5)
      (by decide) rfl).2.1⟩

/-- C9: a `track_updated_files` run that actually scans
(`min_generation ≤ top_generation`) and completes cleanly sets the
cursor so that a second run over the same root generation computes
`min_generation = top_generation + 1 > top_generation` and is a no-op:
it returns the catalog — every `Inode` row and the cursor — exactly as
the first run left it. -/
theorem claim_C9 (topGen : Nat)
    (batches batches2 : List (Except IOErr (List SearchItem))) (db : DB)
    (h1 : minGeneration db.session.vol ≤ topGen)
    (h2 : (track_updated_files topGen batches db).1 = none) :
    minGeneration (track_updated_files topGen batches db).2.session.vol =
      topGen + 1 ∧
    track_updated_files topGen batches2
        (track_updated_files topGen batches db).2 =
      (none, (track_updated_files topGen batches db).2) := by
  have hlt : ¬ minGeneration db.session.vol > topGen := by omega
  rcases hr : runBatches (minGeneration db.session.vol) batches db.session
    with ⟨s1, r⟩
  rcases r with _ | e
  · have hdb : track_updated_files topGen batches db =
        (none, commit { db with session :=
          { s1 with vol :=
            { s1.vol with
              lastTrackedGeneration := topGen,
              lastTrackedSizeCutoff := some s1.vol.sizeCutoff } } }) := by
      unfold track_updated_files
      rw [if_neg hlt, hr]
    rw [hdb]
    constructor
    · simp [commit, minGeneration]
    · unfold track_updated_files
      rw [if_pos (by simp [commit, minGeneration])]
      rfl
  · exfalso
    unfold track_updated_files at h2
    rw [if_neg hlt, hr] at h2
    simp at h2

theorem claim_C9_witness :
    minGeneration (track_updated_files 5 [] exDBSteady).2.session.vol = 6 ∧
    track_updated_files 5 [] (track_updated_files 5 [] exDBSteady).2 =
      (none, (track_updated_files 5 [] exDBSteady).2) :=
  claim_C9 5 [] [] exDBSteady (by decide) rfl

/-- C10, amended: `last_tracked_generation` never decreases under the
scanner: any `track_updated_files` run — no-op, aborted by an I/O error,
or clean — started from a committed session with the root generation at
least the current value leaves the persisted value ≥ its prior value.
`forget_vol`, by contrast, resets the value to 0. -/
theorem claim_C10_amended (topGen : Nat)
    (batches : List (Except IOErr (List SearchItem))) (db : DB)
    (hclean : db.session = db.persisted)
    (hmono : db.persisted.vol.lastTrackedGeneration ≤ topGen) :
    db.persisted.vol.lastTrackedGeneration ≤
      (track_updated_files topGen batches db).2.persisted.vol.lastTrackedGeneration := by
  unfold track_updated_files
  by_cases hlt : minGeneration db.session.vol > topGen
  · rw [if_pos hlt]
    rw [show (commit db).persisted = db.session from rfl, hclean]
  · rw [if_neg hlt]
    rcases hr : runBatches (minGeneration db.session.vol) batches db.session
      with ⟨s1, r⟩
    rcases r with _ | e
    · simpa [commit] using hmono
    · exact Nat.le_refl _

theorem claim_C10_witness :
    exDBTracked.persisted.vol.lastTrackedGeneration ≤
      (track_updated_files 9 [] exDBTracked).2.persisted.vol.lastTrackedGeneration :=
  claim_C10_amended 9 [] exDBTracked rfl (by decide)

/-- C10 counterexample: `forget_vol` is a catalog operation that sets
`last_tracked_generation` from 5 to 0, so the value after the operation
is not ≥ the value before — the claimed monotonicity over every catalog
operation fails. -/
theorem claim_C10_counterexample :
    exDBTracked.persisted.vol.lastTrackedGeneration = 5 ∧
    (forget_vol exDBTracked).persisted.vol.lastTrackedGeneration = 0 ∧
    ¬ exDBTracked.persisted.vol.lastTrackedGeneration ≤
      (forget_vol exDBTracked).persisted.vol.lastTrackedGeneration :=
  ⟨rfl, rfl, by decide⟩

end Bedup
